import Mathlib

/-!
Verification of the m-cedro market-data relay against its specification.

The definitions below are a shallow embedding of the TypeScript sources:
JavaScript numbers are modelled as `JSNum` (rationals plus the three
non-finite points), JavaScript object field maps as insertion-ordered
association lists, and the Effect-TS fibers as explicit step functions on
small state machines.  Each definition names the source function it embeds.
-/

namespace MCedro

/-! ## JavaScript primitive value model -/

/-- A JavaScript number as observed by the parser: `NaN`, the two
infinities, or a finite value.  A finite value is kept in exact decimal
scientific form `m · 10^e` (abstracting from IEEE-754 rounding); its
rational denotation is `JSNum.toRat`. -/
inductive JSNum where
  | nan
  | inf
  | negInf
  | fin (m : ℤ) (e : ℤ)
deriving DecidableEq, Repr

/-- The rational value of a finite JS number (non-finite points map to 0,
they are only ever inspected through `isNaN`/`isFinite`). -/
def JSNum.toRat : JSNum → ℚ
  | .fin m e => if 0 ≤ e then (m : ℚ) * 10 ^ e.toNat else (m : ℚ) / 10 ^ (-e).toNat
  | _ => 0

/-- `Number.isNaN` on the model. -/
def JSNum.isNaN : JSNum → Bool
  | .nan => true
  | _ => false

/-- `Number.isFinite` on the model. -/
def JSNum.isFinite : JSNum → Bool
  | .fin _ _ => true
  | _ => false

/-- A value stored in a Cedro field map: `string | number`. -/
inductive JSValue where
  | num (n : JSNum)
  | str (s : String)
deriving DecidableEq, Repr

/-- ECMAScript `StrWhiteSpaceChar` (ASCII white space, NBSP and the BOM):
the characters trimmed by `Number(...)` and skipped by `parseInt`. -/
def jsWhitespaceChar (c : Char) : Bool :=
  c == ' ' || c == Char.ofNat 9 || c == Char.ofNat 10 || c == Char.ofNat 11 ||
  c == Char.ofNat 12 || c == Char.ofNat 13 || c == Char.ofNat 160 ||
  c == Char.ofNat 65279

/-- Numeric value of one decimal digit character. -/
def digitVal (c : Char) : ℕ := c.toNat - 48

/-- Value of a string of decimal digits. -/
def decDigitsVal (l : List Char) : ℕ :=
  l.foldl (fun a c => a * 10 + digitVal c) 0

/-- Hex digit test (`0-9a-fA-F`). -/
def hexDigitChar (c : Char) : Bool :=
  c.isDigit || ('a' ≤ c && c ≤ 'f') || ('A' ≤ c && c ≤ 'F')

/-- Numeric value of one hex digit character. -/
def hexDigitVal (c : Char) : ℕ :=
  if c.isDigit then c.toNat - 48
  else if 'a' ≤ c && c ≤ 'f' then c.toNat - 87
  else c.toNat - 55

/-- Value of a string of base-`b` digits. -/
def baseDigitsVal (b : ℕ) (l : List Char) : ℕ :=
  l.foldl (fun a c => a * b + hexDigitVal c) 0

/-- Parse the part after `e`/`E` of a numeric literal: optional sign then
one or more digits, consuming the whole rest. -/
def jsDecExponent (l : List Char) : Option ℤ :=
  let sr : ℤ × List Char :=
    match l with
    | '+' :: t => (1, t)
    | '-' :: t => (-1, t)
    | _ => (1, l)
  let ds := sr.2.takeWhile Char.isDigit
  if ds = [] ∨ sr.2.dropWhile Char.isDigit ≠ [] then none
  else some (sr.1 * (decDigitsVal ds : ℤ))

/-- Parse an ECMAScript `StrUnsignedDecimalLiteral`
(`Infinity`, or digits with optional fraction and exponent).
Returns `none` when the characters are not exactly such a literal. -/
def jsDecUnsigned (l : List Char) : Option JSNum :=
  if l = "Infinity".toList then some .inf
  else
    let ip := l.takeWhile Char.isDigit
    let r1 := l.dropWhile Char.isDigit
    let fp : List Char :=
      match r1 with
      | '.' :: r => r.takeWhile Char.isDigit
      | _ => []
    let r2 : List Char :=
      match r1 with
      | '.' :: r => r.dropWhile Char.isDigit
      | _ => r1
    if ip = [] ∧ fp = [] then none
    else
      let m : ℤ := (decDigitsVal ip : ℤ) * 10 ^ fp.length + (decDigitsVal fp : ℤ)
      match r2 with
      | [] => some (.fin m (-(fp.length : ℤ)))
      | 'e' :: r3 =>
          match jsDecExponent r3 with
          | some e => some (.fin m (e - fp.length))
          | none => none
      | 'E' :: r3 =>
          match jsDecExponent r3 with
          | some e => some (.fin m (e - fp.length))
          | none => none
      | _ => none

/-- Negate a parsed unsigned literal (sign applied to decimal literals). -/
def JSNum.neg : JSNum → JSNum
  | .nan => .nan
  | .inf => .negInf
  | .negInf => .inf
  | .fin m e => .fin (-m) e

/-- Parse an ECMAScript `NonDecimalIntegerLiteral` (`0x`, `0o`, `0b`). -/
def jsNonDecimal (l : List Char) : Option JSNum :=
  match l with
  | '0' :: c :: rest =>
    if (c == 'x' || c == 'X') ∧ rest ≠ [] ∧ rest.all hexDigitChar then
      some (.fin (baseDigitsVal 16 rest) 0)
    else if (c == 'o' || c == 'O') ∧ rest ≠ [] ∧
        rest.all (fun d => '0' ≤ d && d ≤ '7') then
      some (.fin (baseDigitsVal 8 rest) 0)
    else if (c == 'b' || c == 'B') ∧ rest ≠ [] ∧
        rest.all (fun d => d == '0' || d == '1') then
      some (.fin (baseDigitsVal 2 rest) 0)
    else none
  | _ => none

/-- The ECMAScript `Number(string)` conversion: trim white space; the empty
remainder is `0`; otherwise the remainder must be exactly a numeric literal
(optionally signed decimal, `Infinity`, or an unsigned `0x`/`0o`/`0b`
literal), and anything else is `NaN`. -/
def jsNumber (s : String) : JSNum :=
  let l := s.toList.dropWhile jsWhitespaceChar
  let l := (l.reverse.dropWhile jsWhitespaceChar).reverse
  if l = [] then .fin 0 0
  else
    match l with
    | '+' :: rest => (jsDecUnsigned rest).getD .nan
    | '-' :: rest => ((jsDecUnsigned rest).map JSNum.neg).getD .nan
    | _ =>
      match jsNonDecimal l with
      | some v => v
      | none => (jsDecUnsigned l).getD .nan

/-- `String.prototype.split` with a one-character separator, on character
lists (structural, so that concrete parses reduce in the kernel).
Mirrors JS: `"".split(c)` is `[""]` and separators at the ends produce
empty tokens. -/
def splitOnChar (sep : Char) : List Char → List (List Char)
  | [] => [[]]
  | c :: t =>
    if c = sep then [] :: splitOnChar sep t
    else
      match splitOnChar sep t with
      | h :: r => (c :: h) :: r
      | [] => [[c]]

/-- `String.prototype.split(":")` as used by both parsers. -/
def jsSplitColon (s : String) : List String :=
  (splitOnChar ':' s.toList).map List.asString

/-- `s.startsWith(pre)` (character-list implementation). -/
def listStartsWith : List Char → List Char → Bool
  | _, [] => true
  | [], _ :: _ => false
  | c :: s, p :: ps => c == p && listStartsWith s ps

/-- `String.prototype.startsWith`. -/
def jsStartsWith (s pre : String) : Bool :=
  listStartsWith s.toList pre.toList

/-- `String.prototype.endsWith` with a one-character suffix. -/
def jsEndsWithChar (s : String) (c : Char) : Bool :=
  s.toList.getLast? == some c

/-- `s.slice(0, -1)`: drop the last character. -/
def jsDropLast (s : String) : String :=
  s.toList.dropLast.asString

/-- `Number.parseInt(s, 10)`: skip leading white space, read an optional
sign and then the longest prefix of decimal digits; `none` models `NaN`
(no digits found). -/
def jsParseInt (s : String) : Option Int :=
  let l := s.toList.dropWhile jsWhitespaceChar
  let sr : Int × List Char :=
    match l with
    | '+' :: t => (1, t)
    | '-' :: t => (-1, t)
    | _ => (1, l)
  let ds := sr.2.takeWhile Char.isDigit
  if ds = [] then none else some (sr.1 * (decDigitsVal ds : ℤ))

/-! ## JavaScript object model for the field maps

A JS object keyed by numbers keeps one property per distinct key; a
repeated assignment overwrites in place.  `Number.parseInt` can produce
`NaN`, and every `NaN` key collides on the single property name `"NaN"`,
so keys are modelled as `Option Int` with `none` standing for `NaN`. -/

/-- A field-map key: `some n` for an integer key, `none` for the `NaN` key. -/
abbrev JSKey := Option Int

/-- An insertion-ordered JS object `Record<number, string | number>`. -/
abbrev FieldMap := List (JSKey × JSValue)

/-- JS property assignment `m[k] = v`: overwrite in place if the key is
present, otherwise append. -/
def setField : FieldMap → JSKey → JSValue → FieldMap
  | [], k, v => [(k, v)]
  | p :: t, k, v => if p.1 = k then (k, v) :: t else p :: setField t k v

/-- JS property read `m[k]`, `none` modelling `undefined`. -/
def getField (m : FieldMap) (k : JSKey) : Option JSValue :=
  (m.find? (fun p => p.1 == k)).map (·.2)

/-- Insertion-ordered string-keyed properties (the named accessor fields
set on a parsed message object). -/
abbrev NamedMap := List (String × JSValue)

/-- JS property assignment on the named-accessor map. -/
def setNamed : NamedMap → String → JSValue → NamedMap
  | [], k, v => [(k, v)]
  | p :: t, k, v => if p.1 = k then (k, v) :: t else p :: setNamed t k v

/-- JS property read on the named-accessor map. -/
def getNamed (m : NamedMap) (k : String) : Option JSValue :=
  (m.find? (fun p => p.1 == k)).map (·.2)

/-! ## The Cedro codec (src/cedroParser.ts and src/src/cedro/cedroParser.ts) -/

/-- The `FIELD_MAPPINGS` table of `src/cedroParser.ts`, in the order
`Object.entries` iterates it (integer keys ascending, which is the listed
order). -/
def FIELD_MAPPINGS : List (Int × String) := [
  (0, "lastModificationTime"),
  (1, "lastModificationDate"),
  (2, "lastTradePrice"),
  (3, "bestBidPrice"),
  (4, "bestAskPrice"),
  (5, "lastTradeTime"),
  (6, "currentTradeQuantity"),
  (7, "lastTradeQuantity"),
  (8, "tradesCount"),
  (9, "cumulativeVolume"),
  (10, "financialVolume"),
  (11, "highPrice"),
  (12, "lowPrice"),
  (13, "previousClosePrice"),
  (14, "openPrice"),
  (15, "bestBidTime"),
  (16, "bestAskTime"),
  (17, "cumulativeBidVolume"),
  (18, "cumulativeAskVolume"),
  (19, "bestBidVolume"),
  (20, "bestAskVolume"),
  (21, "variation"),
  (36, "lastWeekClosePrice"),
  (37, "lastMonthClosePrice"),
  (38, "lastYearClosePrice"),
  (39, "previousDayOpenPrice"),
  (40, "previousDayHighPrice"),
  (41, "previousDayLowPrice"),
  (42, "average"),
  (43, "vhDaily"),
  (44, "marketCode"),
  (45, "assetTypeCode"),
  (46, "standardLot"),
  (47, "assetDescription"),
  (48, "classificationName"),
  (49, "quotationForm"),
  (50, "intradayDate"),
  (51, "lastTradeDate"),
  (52, "shortAssetDescription"),
  (53, "canceledTradeId"),
  (54, "lastTradeDate"),
  (56, "unattendedOffersDirection"),
  (57, "unattendedQuantity"),
  (58, "scheduledOpeningTime"),
  (59, "rescheduledOpeningTime"),
  (60, "bestBidBrokerCode"),
  (61, "bestAskBrokerCode"),
  (62, "buyBrokerCode"),
  (63, "sellBrokerCode"),
  (64, "expirationDate"),
  (65, "expired"),
  (66, "totalSecurities"),
  (67, "instrumentStatus"),
  (72, "optionType"),
  (74, "optionDirection"),
  (81, "parentSymbol"),
  (82, "theoreticalOpenPrice"),
  (83, "theoreticalQuantity"),
  (84, "assetStatus"),
  (85, "strikePrice"),
  (86, "priceDiff"),
  (87, "previousDate"),
  (88, "assetPhase"),
  (89, "previousDayAverage"),
  (90, "marginInterval"),
  (94, "averageVolume20Days"),
  (95, "marketCapitalization"),
  (96, "marketType"),
  (97, "weekVariation"),
  (98, "monthVariation"),
  (99, "yearVariation"),
  (100, "openInterest"),
  (101, "businessDaysToExpiration"),
  (102, "daysToExpiration"),
  (103, "dayAdjustment"),
  (104, "previousDayAdjustment"),
  (105, "securityId"),
  (106, "tickDirection"),
  (107, "tunnelUpperLimit"),
  (108, "tunnelLowerLimit"),
  (109, "tradingPhase"),
  (110, "tickSize"),
  (111, "minTradingVolume"),
  (112, "minPriceIncrement"),
  (113, "minOrderQuantity"),
  (114, "maxOrderQuantity"),
  (115, "instrumentId"),
  (116, "currency"),
  (117, "securityType"),
  (118, "tradingCode"),
  (119, "associatedProduct"),
  (120, "expirationYearMonth"),
  (121, "optionStrikePrice"),
  (122, "optionStrikeCurrency"),
  (123, "contractMultiplier"),
  (124, "priceTypeCode"),
  (125, "tradingEndTime"),
  (126, "assetGroup"),
  (127, "currentRateAdjustment"),
  (128, "previousRateAdjustment"),
  (129, "currentRateAdjustmentDate"),
  (130, "withdrawalsUntilExpiration"),
  (134, "hourVolumeVariation"),
  (135, "dayVolumeVariation"),
  (136, "sectorCode"),
  (137, "subsectorCode"),
  (138, "segmentCode"),
  (139, "currentRateAdjustmentType"),
  (140, "referencePrice"),
  (141, "referencePriceDate"),
  (142, "lastModificationTimeMs"),
  (143, "lastTradeTimeMs"),
  (144, "bestBidTimeMs"),
  (145, "bestAskTimeMs"),
  (200, "unitPrice"),
  (201, "rateValue"),
  (202, "minApplicationValue"),
  (203, "market"),
  (204, "titleCode"),
  (205, "typeCode"),
  (206, "typeName"),
  (207, "selic"),
  (208, "issueDate"),
  (209, "trade"),
  (210, "baseValue"),
  (211, "buyRateValue"),
  (212, "sellRateValue"),
  (213, "indexerCode"),
  (214, "indexerName"),
  (215, "titleName")]

/-- A parsed Cedro message: the ticker, the integer-keyed field map, and
the named accessor properties assigned on the result object. -/
structure CedroMessage where
  ticker : String
  fields : FieldMap
  named : NamedMap
deriving DecidableEq, Repr

/-- The numeric-coercion ternary shared by both parser versions:
`!Number.isNaN(Number(rawValue)) ? Number(rawValue) : rawValue`. -/
def coerceValue (rawValue : String) : JSValue :=
  match jsNumber rawValue with
  | .nan => .str rawValue
  | v => .num v

/-- Group the tokens from index 3 onward into `(fieldPart, valuePart)`
pairs, a trailing odd token getting no value (`parts.slice(i, i + 2)`
with `i` stepping by 2). -/
def fieldPairs : List String → List (String × Option String)
  | [] => []
  | [a] => [(a, none)]
  | a :: b :: t => (a, some b) :: fieldPairs t

/-- `parseCedroMessage` of `src/src/cedro/cedroParser.ts` (the version the
live pipeline imports): strips a trailing `!` before splitting, throws
`"Invalid message format"` when fewer than 3 colon-separated parts remain,
skips a pair when either token is falsy (empty), and finally stores the
raw time token under field 0 when it is truthy. -/
def parseCedroMessage (message : String) : Except String CedroMessage :=
  if ¬ jsStartsWith message "T:" then .ok ⟨message, [], []⟩
  else
    let parts :=
      jsSplitColon (if jsEndsWithChar message '!' then jsDropLast message else message)
    if parts.length < 3 then .error "Invalid message format"
    else
      let ticker := parts.getD 1 ""
      let time := parts.getD 2 ""
      let fields := (fieldPairs (parts.drop 3)).foldl
        (fun m p =>
          match p with
          | (f, some v) =>
            if f ≠ "" ∧ v ≠ "" then setField m (jsParseInt f) (coerceValue v)
            else m
          | (_, none) => m) []
      let fields := if time ≠ "" then setField fields (some 0) (.str time) else fields
      .ok ⟨ticker, fields, []⟩

/-- `parseCedroMessage` of `src/cedroParser.ts` (the root copy): no `!`
stripping, never throws, stores every complete pair (even empty tokens),
sets `result.lastModificationTime` from the time token when truthy, and
copies every present mapped field onto the result object. -/
def parseCedroMessageRoot (message : String) : CedroMessage :=
  if ¬ jsStartsWith message "T:" then ⟨message, [], []⟩
  else
    let parts := jsSplitColon message
    let ticker := parts.getD 1 ""
    let time := parts.get? 2
    let fields := (fieldPairs (parts.drop 3)).foldl
      (fun m p =>
        match p with
        | (f, some v) => setField m (jsParseInt f) (coerceValue v)
        | (_, none) => m) []
    let named : NamedMap :=
      match time with
      | some t => if t ≠ "" then [("lastModificationTime", .str t)] else []
      | none => []
    let named := FIELD_MAPPINGS.foldl
      (fun nm p =>
        match getField fields (some p.1) with
        | some v => setNamed nm p.2 v
        | none => nm) named
    ⟨ticker, fields, named⟩

/-! ## String rendering helpers (template interpolation in `formatCedroMessage`) -/

/-- Decimal digits of a natural number, most significant first (fuel
recursion so concrete values reduce in the kernel). -/
def natDigitsAux : ℕ → ℕ → List Char
  | 0, _ => []
  | fuel + 1, n =>
    if n = 0 then [] else natDigitsAux fuel (n / 10) ++ [Char.ofNat (48 + n % 10)]

/-- Decimal rendering of a natural number. -/
def natToString (n : ℕ) : String :=
  if n = 0 then "0" else (natDigitsAux (n + 1) n).asString

/-- Decimal rendering of an integer. -/
def intToString (n : ℤ) : String :=
  if n < 0 then "-" ++ natToString (-n).toNat else natToString n.toNat

/-- Left-pad a digit list with zeros to a given width. -/
def padZeros (w : ℕ) (l : List Char) : List Char :=
  List.replicate (w - l.length) '0' ++ l

/-- Drop trailing `'0'` characters. -/
def dropTrailingZeros (l : List Char) : List Char :=
  (l.reverse.dropWhile (fun c => c == '0')).reverse

/-- How JS stringifies a number in a template literal (decimal
positional form, trailing fractional zeros removed). -/
def jsNumToString : JSNum → String
  | .nan => "NaN"
  | .inf => "Infinity"
  | .negInf => "-Infinity"
  | .fin m e =>
    let sign := if m < 0 then "-" else ""
    let a := m.natAbs
    if 0 ≤ e then sign ++ natToString (a * 10 ^ e.toNat)
    else
      let k := (-e).toNat
      let ip := a / 10 ^ k
      let fr := dropTrailingZeros (padZeros k (natDigitsAux (a % 10 ^ k + 1) (a % 10 ^ k)))
      if fr = [] then sign ++ natToString ip
      else sign ++ natToString ip ++ "." ++ fr.asString

/-- `${value}` interpolation of a field value. -/
def jsToString : JSValue → String
  | .str s => s
  | .num n => jsNumToString n

/-- `String.prototype.substring(a, b)`. -/
def strSub (s : String) (a b : ℕ) : String :=
  ((s.toList.drop a).take (b - a)).asString

/-- `String.prototype.length`. -/
def strLen (s : String) : ℕ := s.toList.length

/-- Substring search on character lists. -/
def listIncludes (hay needle : List Char) : Bool :=
  match hay with
  | [] => listStartsWith [] needle
  | _ :: t => listStartsWith hay needle || listIncludes t needle

/-- `String.prototype.includes`. -/
def strIncludes (hay needle : String) : Bool :=
  listIncludes hay.toList needle.toList

/-- `x >= 0` on a JS value (`ToNumber` coercion, `NaN` compares false). -/
def jsGEZero (v : JSValue) : Bool :=
  match v with
  | .num n =>
    match n with
    | .fin m _ => decide (0 ≤ m)
    | .inf => true
    | .negInf => false
    | .nan => false
  | .str s =>
    match jsNumber s with
    | .fin m _ => decide (0 ≤ m)
    | .inf => true
    | _ => false

/-! ## Field-map lemmas

The parsers build their field maps by a left fold of JS property writes.
`lastWrite` states what survives: the value of the last write with a given
key. -/

/-- The completed `(fieldID, value)` token pairs of a pair list (a pair
lacking its value token is dropped, as both parsers do). -/
def completePairs (ps : List (String × Option String)) : List (String × String) :=
  ps.filterMap (fun p => p.2.map (fun v => (p.1, v)))

/-- The completed pairs both of whose tokens are truthy (non-empty): the
pairs the live parser stores. -/
def truthyPairs (ps : List (String × Option String)) : List (String × String) :=
  (completePairs ps).filter (fun p => decide (p.1 ≠ "" ∧ p.2 ≠ ""))

/-- The `(key, value)` property writes the root parser performs. -/
def storedWrites (ps : List (String × Option String)) : List (JSKey × JSValue) :=
  (completePairs ps).map (fun q => (jsParseInt q.1, coerceValue q.2))

/-- The `(key, value)` property writes the live parser performs. -/
def storedTruthyWrites (ps : List (String × Option String)) : List (JSKey × JSValue) :=
  (truthyPairs ps).map (fun q => (jsParseInt q.1, coerceValue q.2))

/-- Apply a sequence of property writes to a field map, left to right. -/
def applyPairs (m : FieldMap) (l : List (JSKey × JSValue)) : FieldMap :=
  l.foldl (fun m p => setField m p.1 p.2) m

/-- The value of the last write with key `k` in a write sequence. -/
def lastWrite : List (JSKey × JSValue) → JSKey → Option JSValue
  | [], _ => none
  | p :: t, k =>
    match lastWrite t k with
    | some v => some v
    | none => if p.1 = k then some p.2 else none

/-- The last `(fieldID, value)` token pair whose field token parses to a
given key. -/
def lastPairFor : List (String × String) → JSKey → Option (String × String)
  | [], _ => none
  | q :: t, k =>
    match lastPairFor t k with
    | some r => some r
    | none => if jsParseInt q.1 = k then some q else none

/-! ## `formatCedroMessage` (src/cedroParser.ts lines 248-416) -/

/-- The `markets` lookup table. -/
def marketsTable : List (ℕ × String) := [
  (1, "Bovespa"), (2, "Dow Jones"), (3, "BM&F"), (4, "Índices"), (5, "Money"),
  (6, "Soma"), (7, "Forex"), (8, "Indicators"), (9, "Others"), (10, "Nyse"),
  (11, "Bats"), (12, "Nasdaq")]

/-- The `assetTypes` lookup table. -/
def assetTypesTable : List (ℕ × String) := [
  (1, "Ativo à vista"), (2, "Opção"), (3, "Índice"), (4, "Commodity"),
  (5, "Moeda"), (6, "Termo"), (7, "Futuro"), (8, "Leilão"), (9, "Bônus"),
  (10, "Fracionário"), (13, "ETF"), (17, "Opção sobre futuro")]

/-- The `phases` lookup table. -/
def phasesTable : List (String × String) := [
  ("P", "Pré abertura"), ("A", "Abertura (sessão normal)"), ("PN", "Pré fechamento"),
  ("N", "Fechamento"), ("E", "Pré abertura do after"), ("R", "Abertura After"),
  ("NE", "Fechamento do after"), ("F", "Final"), ("NO", "Fechado"), ("T", "Pausado")]

/-- The `directions` lookup table. -/
def directionsTable : List (String × String) := [
  ("+", "Alta"), ("0+", "Estável (último movimento foi alta)"), ("-", "Baixa"),
  ("0-", "Estável (último movimento foi baixa)")]

/-- JS object lookup `tbl[v] || v` on an integer-keyed table (property
names compare as strings). -/
def lookupNumOrRaw (tbl : List (ℕ × String)) (v : JSValue) : String :=
  ((tbl.find? (fun p => jsToString v == natToString p.1)).map (fun p => p.2)).getD
    (jsToString v)

/-- JS object lookup `tbl[v] || v` on a string-keyed table. -/
def lookupStrOrRaw (tbl : List (String × String)) (v : JSValue) : String :=
  ((tbl.find? (fun p => jsToString v == p.1)).map (fun p => p.2)).getD (jsToString v)

/-- A simple conditional section: rendered only when the named field is
present. -/
def fmtOpt (m : CedroMessage) (key label : String) : Option String :=
  (getNamed m.named key).map (fun v => label ++ jsToString v ++ "\n")

/-- The `Variação` section with its sign prefix. -/
def variationSection (m : CedroMessage) : Option String :=
  (getNamed m.named "variation").map (fun v =>
    (if jsGEZero v then "Variação: +" else "Variação: ") ++ jsToString v ++ "\n")

/-- A section rendered only when both named fields are present. -/
def pairSection (m : CedroMessage) (k1 k2 label : String) : Option String :=
  match getNamed m.named k1, getNamed m.named k2 with
  | some a, some b => some (label ++ jsToString a ++ "/" ++ jsToString b ++ "\n")
  | _, _ => none

/-- The `Horário Último Negócio` section (HHMMSSmmm reformatting). -/
def lastTradeTimeMsSection (m : CedroMessage) : Option String :=
  (getNamed m.named "lastTradeTimeMs").map (fun v =>
    let timeStr := jsToString v
    if 6 ≤ strLen timeStr then
      let ms := if 6 < strLen timeStr then "." ++ (timeStr.toList.drop 6).asString else ""
      "Horário Último Negócio: " ++ strSub timeStr 0 2 ++ ":" ++ strSub timeStr 2 4 ++
        ":" ++ strSub timeStr 4 6 ++ ms ++ "\n"
    else "Horário Último Negócio: " ++ timeStr ++ "\n")

/-- The `Data Último Negócio` section (YYYYMMDD reformatting). -/
def lastTradeDateSection (m : CedroMessage) : Option String :=
  (getNamed m.named "lastTradeDate").map (fun v =>
    let dateStr := jsToString v
    if strLen dateStr = 8 then
      "Data Último Negócio: " ++ strSub dateStr 6 8 ++ "/" ++ strSub dateStr 4 6 ++
        "/" ++ strSub dateStr 0 4 ++ "\n"
    else "Data Último Negócio: " ++ dateStr ++ "\n")

/-- The `Mercado` section. -/
def marketSection (m : CedroMessage) : Option String :=
  (getNamed m.named "marketCode").map (fun v =>
    "Mercado: " ++ lookupNumOrRaw marketsTable v ++ "\n")

/-- The `Tipo de Ativo` section. -/
def assetTypeSection (m : CedroMessage) : Option String :=
  (getNamed m.named "assetTypeCode").map (fun v =>
    "Tipo de Ativo: " ++ lookupNumOrRaw assetTypesTable v ++ "\n")

/-- The `Fase` section. -/
def phaseSection (m : CedroMessage) : Option String :=
  (getNamed m.named "assetPhase").map (fun v =>
    "Fase: " ++ lookupStrOrRaw phasesTable v ++ "\n")

/-- The `Direção` section. -/
def directionSection (m : CedroMessage) : Option String :=
  (getNamed m.named "tickDirection").map (fun v =>
    "Direção: " ++ lookupStrOrRaw directionsTable v ++ "\n")

/-- Append a conditionally rendered section. -/
def appendIf (r : String) (s : Option String) : String :=
  match s with
  | some x => r ++ x
  | none => r

/-- The `importantFields` array. -/
def importantFields : List String := [
  "average", "dayAdjustment", "hourVolumeVariation", "dayVolumeVariation",
  "securityType", "currency", "tradingCode"]

/-- One iteration of the `Outros Dados` loop: rendered when the field is
present and its name does not already occur in the accumulated output;
the section header is emitted before the first such line. -/
def otherFieldsStep (m : CedroMessage) (acc : String × Bool) (field : String) :
    String × Bool :=
  match getNamed m.named field with
  | some v =>
    if strIncludes acc.1 field then acc
    else
      (acc.1 ++ ((if acc.2 then "" else "\nOutros Dados:\n") ++
        "  " ++ field ++ ": " ++ jsToString v ++ "\n"), true)
  | none => acc

/-- Insertion into an integer-key-sorted entry list. -/
def insertByKey (p : ℤ × JSValue) : List (ℤ × JSValue) → List (ℤ × JSValue)
  | [] => [p]
  | q :: t => if p.1 < q.1 then p :: q :: t else q :: insertByKey p t

/-- Insertion sort by integer key. -/
def sortByKey : List (ℤ × JSValue) → List (ℤ × JSValue)
  | [] => []
  | p :: t => insertByKey p (sortByKey t)

/-- `Object.entries` iteration order over a field map: the integer-like
keys ascending, then the `NaN` key in insertion position. -/
def entriesInOrder (m : FieldMap) : List (JSKey × JSValue) :=
  (sortByKey (m.filterMap (fun p => p.1.map (fun k => (k, p.2))))).map
      (fun q => (some q.1, q.2))
    ++ m.filter (fun p => p.1 == none)

/-- The property-name string of a field-map key. -/
def keyToString : JSKey → String
  | some n => intToString n
  | none => "NaN"

/-- `FIELD_MAPPINGS[id]` with the `Campo <id>` fallback. -/
def fieldNameFor : JSKey → String
  | some n =>
    ((FIELD_MAPPINGS.find? (fun p => p.1 == n)).map (fun p => p.2)).getD
      ("Campo " ++ intToString n)
  | none => "Campo NaN"

/-- The raw-fields dump appended at the end of every formatted message. -/
def dumpEntries (m : FieldMap) : String :=
  (entriesInOrder m).foldl
    (fun r p => r ++ "  " ++ keyToString p.1 ++ " (" ++ fieldNameFor p.1 ++ "): " ++
      jsToString p.2 ++ "\n") ""

/-- `formatCedroMessage` of `src/cedroParser.ts`: the ticker line, then
each section rendered only when its backing named field is present, then
the `Outros Dados` loop, then the raw-fields dump. -/
def formatCedroMessage (message : CedroMessage) : String :=
  let r := "Ticker: " ++ message.ticker ++ "\n"
  let r := appendIf r (fmtOpt message "lastTradePrice" "Último Preço: ")
  let r := appendIf r (variationSection message)
  let r := appendIf r (pairSection message "highPrice" "lowPrice" "Máxima/Mínima: ")
  let r := appendIf r (fmtOpt message "openPrice" "Abertura: ")
  let r := appendIf r (fmtOpt message "previousClosePrice" "Fechamento Anterior: ")
  let r := appendIf r (fmtOpt message "cumulativeVolume" "Volume Acumulado: ")
  let r := appendIf r (fmtOpt message "tradesCount" "Negócios: ")
  let r := appendIf r (fmtOpt message "financialVolume" "Volume Financeiro: ")
  let r := appendIf r (pairSection message "bestBidPrice" "bestAskPrice" "Compra/Venda: ")
  let r := appendIf r (lastTradeTimeMsSection message)
  let r := appendIf r (lastTradeDateSection message)
  let r := appendIf r (marketSection message)
  let r := appendIf r (assetTypeSection message)
  let r := appendIf r (phaseSection message)
  let r := appendIf r (fmtOpt message "openInterest" "Contratos em Aberto: ")
  let r := appendIf r (directionSection message)
  let r := (importantFields.foldl (otherFieldsStep message) (r, false)).1
  r ++ "\nCampos Originais:\n" ++ dumpEntries message.fields

/-! ## Connection writer fiber (src/src/tcp-stream.ts, `writerFiber`)

One iteration takes an item from the outgoing queue and runs
`Effect.try`: the `try` block writes, throws on a partial write, and on
success resets `writeErrorCount` via `Effect.runSync`; the `catch`
handler increments the counter via `Effect.runSync` and then RETURNS an
Effect object — `Effect.fail(...)` over budget, a sleep-and-re-offer
Effect under budget.  `Effect.try` uses the handler's return value as
the typed failure value, so that Effect is never executed: the body
fails, `Effect.iterate` propagates the failure, and the fiber stops. -/

/-- Outcome of one `bunSocket.write` attempt inside the `try` block
(`err` covers a thrown partial write or socket error). -/
inductive WriteOutcome where
  | ok
  | err
deriving DecidableEq, Repr

/-- The value the `catch` handler returns (an unexecuted Effect object,
recording which branch the handler took). -/
inductive CatchResult where
  | failEffect (attempts : ℕ)
  | retryEffect
deriving DecidableEq, Repr

/-- One body iteration after taking `data`: the new `writeErrorCount`
and, when the write threw, the catch value the iteration fails with. -/
def writerBody (errorCount : ℕ) (w : WriteOutcome) : ℕ × Option CatchResult :=
  match w with
  | .ok => (0, none)
  | .err =>
    let currentErrors := errorCount + 1
    if currentErrors > 3 then (currentErrors, some (.failEffect currentErrors))
    else (currentErrors, some .retryEffect)

/-- Run the writer fiber over the queued write outcomes: iterate until a
body fails; return the final counter, the failure the fiber ended with
(if any), and how many queue items were consumed.  Nothing is ever
re-offered to the queue — the retry Effect is only a failure value. -/
def runWriterFiber : ℕ → List WriteOutcome → ℕ × Option CatchResult × ℕ
  | n, [] => (n, none, 0)
  | n, w :: rest =>
    match writerBody n w with
    | (n', none) =>
      let r := runWriterFiber n' rest
      (r.1, r.2.1, r.2.2 + 1)
    | (n', some e) => (n', some e, 1)

/-! ## Exactly-once shutdown

`performShutdown` (src/src/tcp-stream.ts) begins with the atomic
`Ref.getAndSet(isClosing, true)` and returns early when the flag was
already set; the teardown (socket end, writer interrupt, queue
shutdowns) runs only in the task that saw `false`.

`close` (src/src/websocket-server.ts) has its `Ref.getAndSet` guard
commented out: it READS `closeAlreadyCalled` at entry (`Effect.if`),
runs the teardown (server stop, 200 ms sleep, fiber interrupts, queue
shutdown), and only then SETS the flag. -/

/-- State shared by concurrent shutdown tasks: the already-closing flag
and how many times the teardown side effects have run. -/
structure ShutState where
  flag : Bool
  teardowns : ℕ
deriving DecidableEq, Repr

/-- Control points of one `performShutdown` task. -/
inductive TcpPhase where
  | start
  | teardown
  | done
deriving DecidableEq, Repr

/-- One atomic step of a `performShutdown` task: `getAndSet` reads the
old flag and sets it in one step, deciding whether to tear down. -/
def tcpStep : TcpPhase → ShutState → TcpPhase × ShutState
  | .start, s => (if s.flag then .done else .teardown, { s with flag := true })
  | .teardown, s => (.done, { s with teardowns := s.teardowns + 1 })
  | .done, s => (.done, s)

/-- Control points of one websocket-server `close` task. -/
inductive WsPhase where
  | start
  | teardown
  | setflag
  | done
deriving DecidableEq, Repr

/-- One atomic step of a websocket-server `close` task: the read and the
write of the flag are separate steps with the whole teardown between
them. -/
def wsStep : WsPhase → ShutState → WsPhase × ShutState
  | .start, s => (if s.flag then .done else .teardown, s)
  | .teardown, s => (.setflag, { s with teardowns := s.teardowns + 1 })
  | .setflag, s => (.done, { s with flag := true })
  | .done, s => (.done, s)

/-- Interleave two tasks of the same shutdown routine: `true` steps the
first task, `false` the second. -/
def runSched {P : Type} (step : P → ShutState → P × ShutState) :
    List Bool → P × P → ShutState → (P × P) × ShutState
  | [], ps, s => (ps, s)
  | true :: r, (p1, p2), s =>
    let t := step p1 s
    runSched step r (t.1, p2) t.2
  | false :: r, (p1, p2), s =>
    let t := step p2 s
    runSched step r (p1, t.1) t.2

/-- Run one task for `n` consecutive steps. -/
def stepN {P : Type} (step : P → ShutState → P × ShutState) :
    ℕ → P → ShutState → P × ShutState
  | 0, p, s => (p, s)
  | n + 1, p, s =>
    let t := step p s
    stepN step n t.1 t.2

/-- Two concurrent invocations of the same shutdown routine: any
interleaving prefix, then each task runs to completion (3 steps cover
every phase path). -/
def runTwoShutdowns {P : Type} (step : P → ShutState → P × ShutState)
    (init : P) (sched : List Bool) : ShutState :=
  let r := runSched step sched (init, init) ⟨false, 0⟩
  let f1 := stepN step 3 r.1.1 r.2
  let f2 := stepN step 3 r.1.2 f1.2
  f2.2

/-- Teardowns a task at this phase will still perform. -/
def tcpPending : TcpPhase → ℕ
  | .teardown => 1
  | _ => 0

/-- Invariant of the tcp shutdown pair: before anyone decided, nothing
happened; once the flag is set, performed plus pending teardowns is
exactly one. -/
def tcpInv (p q : TcpPhase) (s : ShutState) : Prop :=
  if s.flag = true then s.teardowns + tcpPending p + tcpPending q = 1
  else s.teardowns = 0 ∧ p = .start ∧ q = .start

/-! ## Metrics pipeline (src/src/metrics.ts, and its part_004 variant)

A window is a chunk of messages, each represented by its measured
per-message processing time in milliseconds.  `windowedStream` maps a
chunk to a count and a `totalMillis`; `rateStream` is a `mapAccum`
carrying the list of the last rates; `metricsStream` builds the record
that is validated and, past the filter, consumed downstream. -/

/-- Output of `windowedStream`: one completed window. -/
structure WindowAgg where
  count : ℕ
  totalMillis : ℚ
deriving DecidableEq, Repr

/-- `Chunk.reduce(times, 0, (acc, t) => acc + t)`. -/
def listSum (l : List ℚ) : ℚ := l.foldl (fun a b => a + b) 0

/-- part_004 `windowedStream`: count and the sum of the measured
per-message processing times. -/
def windowedStreamMeasured (times : List ℚ) : WindowAgg :=
  ⟨times.length, listSum times⟩

/-- metrics.ts `windowedStream`: the measured-sum reduce is commented
out and `totalMillis` is `windowTime * 1_000`, the window duration in
milliseconds. -/
def windowedStreamFixed (windowTime : ℚ) (times : List ℚ) : WindowAgg :=
  ⟨times.length, windowTime * 1000⟩

/-- Record emitted by `rateStream` for one window. -/
structure RateRec where
  count : ℕ
  totalMillis : ℚ
  rate : ℚ
  movingAvg : ℚ
deriving DecidableEq, Repr

/-- One `Stream.mapAccum` step of `rateStream`: push this window's rate
`count / windowTime`, shift out the oldest once more than
`rateWindowSize` are retained, and report the arithmetic mean of the
retained rates. -/
def rateStep (rateWindowSize : ℕ) (windowTime : ℚ) (rates : List ℚ)
    (w : WindowAgg) : List ℚ × RateRec :=
  let rate := (w.count : ℚ) / windowTime
  let pushed := rates ++ [rate]
  let nextRates := if rateWindowSize < pushed.length then pushed.tail else pushed
  (nextRates,
    ⟨w.count, w.totalMillis, rate,
      (nextRates.foldl (fun a b => a + b) 0) / (nextRates.length : ℚ)⟩)

/-- `rateStream` as a function of the accumulated rate list. -/
def rateStreamAux (N : ℕ) (wt : ℚ) (rates : List ℚ) :
    List WindowAgg → List RateRec
  | [] => []
  | w :: ws =>
    let t := rateStep N wt rates w
    t.2 :: rateStreamAux N wt t.1 ws

/-- `rateStream`: the accumulator starts empty. -/
def rateStream (N : ℕ) (wt : ℚ) (ws : List WindowAgg) : List RateRec :=
  rateStreamAux N wt [] ws

/-- The last `n` elements of a list. -/
def lastN (n : ℕ) (l : List ℚ) : List ℚ := l.drop (l.length - n)

/-- Arithmetic mean (`reduce(+) / length`). -/
def mean (l : List ℚ) : ℚ := (l.foldl (fun a b => a + b) 0) / (l.length : ℚ)

/-- The per-window rates `count / windowTime` of a window sequence. -/
def windowRates (wt : ℚ) (ws : List WindowAgg) : List ℚ :=
  ws.map (fun w => (w.count : ℚ) / wt)

/-- `Number(x.toFixed(2))`: the value rounded to two decimal places
(ties away from zero for positive values, as the larger candidate is
chosen). -/
def toFixed2 (q : ℚ) : JSNum := .fin (round (q * 100)) (-2)

/-- The record `metricsStream` builds for one window (`timestamp` is the
clock reading, `totalCount` the lifetime counter value). -/
structure Metrics where
  timestamp : ℚ
  windowCount : ℚ
  windowTime : ℚ
  totalCount : ℚ
  messageRate : ℚ
  avgProcessingTime : JSNum
deriving DecidableEq, Repr

/-- The `metricsStream` mapping of one `rateStream` record:
`avgProcessingTime` is `Number((totalMillis / windowCount).toFixed(2))`
when the window count is positive and 0 otherwise (the division is
guarded), and `messageRate` is the moving average. -/
def metricsRecord (now totalCount windowTime : ℚ) (r : RateRec) : Metrics :=
  ⟨now, (r.count : ℚ), windowTime, totalCount, r.movingAvg,
    if 0 < r.count then toFixed2 (r.totalMillis / (r.count : ℚ)) else .fin 0 0⟩

/-- The windowed-aggregation pipeline from message chunks to metrics
records, parameterized by the `windowedStream` variant. -/
def metricsPipeline (N : ℕ) (wt now totalCount : ℚ)
    (agg : List ℚ → WindowAgg) (chunks : List (List ℚ)) : List Metrics :=
  (rateStream N wt (chunks.map agg)).map (metricsRecord now totalCount wt)

/-- `validateMetrics` of src/src/metrics.ts. -/
def validateMetrics (now : ℚ) (m : Metrics) : Bool :=
  if m.windowCount < 0 then false
  else if m.messageRate < 0 then false
  else if ¬ m.avgProcessingTime.isFinite then false
  else if m.timestamp > now + 1000 then false
  else true

/-- The `Stream.filter(validateMetrics)` stage: only validated records
flow downstream. -/
def publishMetrics (now : ℚ) (records : List Metrics) : List Metrics :=
  records.filter (validateMetrics now)

theorem getField_setField (m : FieldMap) (k k' : JSKey) (v : JSValue) :
    getField (setField m k v) k' = if k = k' then some v else getField m k' := by
  induction m with
  | nil =>
    by_cases h : k = k' <;> simp [setField, getField, h]
  | cons p t ih =>
    by_cases hpk : p.1 = k
    · by_cases hkk : k = k' <;>
        simp [setField, getField, hpk, hkk, hpk.symm ▸ hkk]
    · by_cases hpk' : p.1 = k' <;> by_cases hkk : k = k' <;>
        simp_all [setField, getField]

theorem keys_setField_subset (m : FieldMap) (k x : JSKey) (v : JSValue)
    (hx : x ∈ (setField m k v).map (fun p => p.1)) :
    x ∈ m.map (fun p => p.1) ∨ x = k := by
  induction m with
  | nil =>
    right
    simpa [setField] using hx
  | cons p t ih =>
    by_cases hpk : p.1 = k
    · rw [setField, if_pos hpk] at hx
      simp only [List.map_cons, List.mem_cons] at hx ⊢
      rcases hx with h | h
      · right; exact h
      · left; right; exact h
    · rw [setField, if_neg hpk] at hx
      simp only [List.map_cons, List.mem_cons] at hx ⊢
      rcases hx with h | h
      · left; left; exact h
      · rcases ih h with h' | h'
        · left; right; exact h'
        · right; exact h'

theorem nodup_keys_setField (m : FieldMap) (k : JSKey) (v : JSValue)
    (h : (m.map (fun p => p.1)).Nodup) :
    ((setField m k v).map (fun p => p.1)).Nodup := by
  induction m with
  | nil => simp [setField]
  | cons p t ih =>
    simp only [List.map_cons, List.nodup_cons] at h
    by_cases hpk : p.1 = k
    · rw [setField, if_pos hpk]
      simp only [List.map_cons, List.nodup_cons]
      exact ⟨hpk ▸ h.1, h.2⟩
    · rw [setField, if_neg hpk]
      simp only [List.map_cons, List.nodup_cons]
      refine ⟨?_, ih h.2⟩
      intro hmem
      rcases keys_setField_subset t k p.1 v hmem with h' | h'
      · exact h.1 h'
      · exact hpk h'

theorem getField_applyPairs (l : List (JSKey × JSValue)) (m : FieldMap) (k : JSKey) :
    getField (applyPairs m l) k =
      match lastWrite l k with
      | some v => some v
      | none => getField m k := by
  induction l generalizing m with
  | nil => simp [applyPairs, lastWrite]
  | cons p t ih =>
    show getField (applyPairs (setField m p.1 p.2) t) k = _
    rw [ih]
    cases hlw : lastWrite t k with
    | some v => simp [lastWrite, hlw]
    | none =>
      simp only [lastWrite, hlw, getField_setField]
      by_cases hpk : p.1 = k <;> simp [hpk]

theorem getField_applyPairs_nil (l : List (JSKey × JSValue)) (k : JSKey) :
    getField (applyPairs [] l) k = lastWrite l k := by
  rw [getField_applyPairs]
  cases hlw : lastWrite l k <;> simp [getField]

theorem nodup_keys_applyPairs (l : List (JSKey × JSValue)) (m : FieldMap)
    (h : (m.map (fun p => p.1)).Nodup) :
    ((applyPairs m l).map (fun p => p.1)).Nodup := by
  induction l generalizing m with
  | nil => exact h
  | cons p t ih => exact ih _ (nodup_keys_setField m p.1 p.2 h)

theorem lastWrite_storedWrites (ps : List (String × String)) (k : JSKey) :
    lastWrite (ps.map (fun q => (jsParseInt q.1, coerceValue q.2))) k =
      (lastPairFor ps k).map (fun q => coerceValue q.2) := by
  induction ps with
  | nil => simp [lastWrite, lastPairFor]
  | cons q t ih =>
    simp only [List.map_cons, lastWrite, lastPairFor, ih]
    cases lastPairFor t k with
    | some r => simp
    | none =>
      by_cases hq : jsParseInt q.1 = k <;> simp [hq]

theorem applyPairs_cons (m : FieldMap) (p : JSKey × JSValue)
    (l : List (JSKey × JSValue)) :
    applyPairs m (p :: l) = applyPairs (setField m p.1 p.2) l := rfl

/-- The root parser fold equals applying the stored writes in order. -/
theorem rootFold_eq_applyPairs (ps : List (String × Option String)) (m : FieldMap) :
    ps.foldl
      (fun m p =>
        match p with
        | (f, some v) => setField m (jsParseInt f) (coerceValue v)
        | (_, none) => m) m
      = applyPairs m (storedWrites ps) := by
  induction ps generalizing m with
  | nil => simp [applyPairs, storedWrites, completePairs]
  | cons p t ih =>
    cases p with
    | mk f ov =>
      cases ov with
      | none => simpa [storedWrites, completePairs] using ih m
      | some v =>
        have h1 : storedWrites ((f, some v) :: t) =
            (jsParseInt f, coerceValue v) :: storedWrites t := by
          simp [storedWrites, completePairs]
        rw [List.foldl_cons]
        exact (ih _).trans (by rw [h1, applyPairs_cons])

/-- The live parser fold equals applying the truthy stored writes. -/
theorem liveFold_eq_applyPairs (ps : List (String × Option String)) (m : FieldMap) :
    ps.foldl
      (fun m p =>
        match p with
        | (f, some v) =>
          if f ≠ "" ∧ v ≠ "" then setField m (jsParseInt f) (coerceValue v) else m
        | (_, none) => m) m
      = applyPairs m (storedTruthyWrites ps) := by
  induction ps generalizing m with
  | nil => simp [applyPairs, storedTruthyWrites, truthyPairs, completePairs]
  | cons p t ih =>
    cases p with
    | mk f ov =>
      cases ov with
      | none =>
        simpa [storedTruthyWrites, truthyPairs, completePairs] using ih m
      | some v =>
        rw [List.foldl_cons]
        refine (ih _).trans ?_
        have h0 : completePairs ((f, some v) :: t) = (f, v) :: completePairs t := rfl
        by_cases htr : f ≠ "" ∧ v ≠ ""
        · have h1 : storedTruthyWrites ((f, some v) :: t) =
              (jsParseInt f, coerceValue v) :: storedTruthyWrites t := by
            simp [storedTruthyWrites, truthyPairs, h0, List.filter_cons, htr.1, htr.2]
          rw [h1, applyPairs_cons]
          congr 1
          show (if f ≠ "" ∧ v ≠ "" then setField m (jsParseInt f) (coerceValue v)
            else m) = _
          rw [if_pos htr]
        · have h1 : storedTruthyWrites ((f, some v) :: t) =
              storedTruthyWrites t := by
            simp only [storedTruthyWrites, truthyPairs, h0, List.filter_cons,
              decide_eq_false htr]
            simp
          rw [h1]
          congr 1
          show (if f ≠ "" ∧ v ≠ "" then setField m (jsParseInt f) (coerceValue v)
            else m) = _
          rw [if_neg htr]

/-- The numeric-coercion ternary written as the claims state it. -/
theorem coerceValue_eq_ite (v : String) :
    coerceValue v = if (jsNumber v).isNaN then .str v else .num (jsNumber v) := by
  cases h : jsNumber v <;> simp [coerceValue, JSNum.isNaN, h]

/-- The field map of a root-parsed well-formed record is the stored
writes applied to the empty object. -/
theorem parseRoot_fields_eq (msg : String) (h : jsStartsWith msg "T:" = true) :
    (parseCedroMessageRoot msg).fields =
      applyPairs [] (storedWrites (fieldPairs ((jsSplitColon msg).drop 3))) := by
  unfold parseCedroMessageRoot
  rw [if_neg (by simp [h])]
  exact rootFold_eq_applyPairs _ _

/-- What the live parser returns on a well-formed record with enough
parts: the ticker token, the truthy stored writes applied to the empty
object, and the raw time token finally written under field 0 when
truthy. -/
theorem parseLive_eq (msg : String) (h : jsStartsWith msg "T:" = true)
    (hlen : ¬ (jsSplitColon
      (if jsEndsWithChar msg '!' then jsDropLast msg else msg)).length < 3) :
    parseCedroMessage msg =
      .ok ⟨(jsSplitColon (if jsEndsWithChar msg '!' then jsDropLast msg else msg)).getD 1 "",
        (if (jsSplitColon (if jsEndsWithChar msg '!' then jsDropLast msg else msg)).getD 2 ""
            ≠ "" then
          setField
            (applyPairs [] (storedTruthyWrites (fieldPairs
              ((jsSplitColon (if jsEndsWithChar msg '!' then jsDropLast msg
                else msg)).drop 3))))
            (some 0)
            (.str ((jsSplitColon (if jsEndsWithChar msg '!' then jsDropLast msg
              else msg)).getD 2 ""))
        else
          applyPairs [] (storedTruthyWrites (fieldPairs
            ((jsSplitColon (if jsEndsWithChar msg '!' then jsDropLast msg
              else msg)).drop 3)))), []⟩ := by
  unfold parseCedroMessage
  rw [if_neg (by simp [h])]
  simp only [hlen, if_false]
  rw [liveFold_eq_applyPairs]

/-- Both parsers return the degenerate record on inputs without the
`"T:"` marker. -/
theorem parseLive_nonT (s : String) (h : ¬ jsStartsWith s "T:" = true) :
    parseCedroMessage s = .ok ⟨s, [], []⟩ := by
  unfold parseCedroMessage
  rw [if_pos h]

/-- Root-parser counterpart of `parseLive_nonT`. -/
theorem parseRoot_nonT (s : String) (h : ¬ jsStartsWith s "T:" = true) :
    parseCedroMessageRoot s = ⟨s, [], []⟩ := by
  unfold parseCedroMessageRoot
  rw [if_pos h]

/-- The live parser throws exactly on marked inputs with fewer than
three parts. -/
theorem parseLive_short (s : String) (h : jsStartsWith s "T:" = true)
    (hlen : (jsSplitColon (if jsEndsWithChar s '!' then jsDropLast s else s)).length < 3) :
    parseCedroMessage s = .error "Invalid message format" := by
  unfold parseCedroMessage
  rw [if_neg (by simp [h])]
  simp only [hlen, if_true]

/-! ## Prefix preservation through the formatter -/

theorem listStartsWith_append (p a b : List Char) (h : listStartsWith a p = true) :
    listStartsWith (a ++ b) p = true := by
  induction p generalizing a with
  | nil => cases a <;> simp [listStartsWith]
  | cons c pt ih =>
    cases a with
    | nil => simp [listStartsWith] at h
    | cons x xt =>
      simp only [List.cons_append, listStartsWith, Bool.and_eq_true] at h ⊢
      exact ⟨h.1, ih xt h.2⟩

theorem listStartsWith_self_append (p l : List Char) :
    listStartsWith (p ++ l) p = true := by
  induction p with
  | nil => cases l <;> simp [listStartsWith]
  | cons c pt ih => simp [listStartsWith, ih]

theorem jsStartsWith_append (s t p : String) (h : jsStartsWith s p = true) :
    jsStartsWith (s ++ t) p = true := by
  have hd : (s ++ t).toList = s.toList ++ t.toList := String.data_append s t
  unfold jsStartsWith at h ⊢
  rw [hd]
  exact listStartsWith_append _ _ _ h

theorem jsStartsWith_self_append (p s : String) :
    jsStartsWith (p ++ s) p = true := by
  have hd : (p ++ s).toList = p.toList ++ s.toList := String.data_append p s
  unfold jsStartsWith
  rw [hd]
  exact listStartsWith_self_append _ _

theorem jsStartsWith_appendIf (r : String) (o : Option String) (p : String)
    (h : jsStartsWith r p = true) : jsStartsWith (appendIf r o) p = true := by
  cases o with
  | none => exact h
  | some x => exact jsStartsWith_append r x p h

theorem jsStartsWith_otherFields (m : CedroMessage) (l : List String)
    (acc : String × Bool) (p : String) (h : jsStartsWith acc.1 p = true) :
    jsStartsWith (l.foldl (otherFieldsStep m) acc).1 p = true := by
  induction l generalizing acc with
  | nil => exact h
  | cons f t ih =>
    rw [List.foldl_cons]
    refine ih _ ?_
    unfold otherFieldsStep
    cases hg : getNamed m.named f with
    | none => simpa [hg] using h
    | some v =>
      simp only [hg]
      by_cases hin : strIncludes acc.1 f = true
      · rw [if_pos hin]
        exact h
      · rw [if_neg hin]
        exact jsStartsWith_append _ _ _ h

/-- The formatter always returns a string and it always opens with the
ticker line, whatever subset of fields is present. -/
theorem formatCedroMessage_startsWith (m : CedroMessage) :
    jsStartsWith (formatCedroMessage m) "Ticker: " = true := by
  unfold formatCedroMessage
  apply jsStartsWith_append
  apply jsStartsWith_append
  apply jsStartsWith_otherFields
  apply jsStartsWith_appendIf
  apply jsStartsWith_appendIf
  apply jsStartsWith_appendIf
  apply jsStartsWith_appendIf
  apply jsStartsWith_appendIf
  apply jsStartsWith_appendIf
  apply jsStartsWith_appendIf
  apply jsStartsWith_appendIf
  apply jsStartsWith_appendIf
  apply jsStartsWith_appendIf
  apply jsStartsWith_appendIf
  apply jsStartsWith_appendIf
  apply jsStartsWith_appendIf
  apply jsStartsWith_appendIf
  apply jsStartsWith_appendIf
  apply jsStartsWith_appendIf
  apply jsStartsWith_append
  exact jsStartsWith_self_append _ _

/-! ## Claim theorems about the codec -/

/-- C1: decoding `"T:WINJ25:102635:2:133290:21:0.346307:106:0-:147:539!"`
yields a record with ticker `WINJ25`, numeric field 2 = 133290, numeric
field 21 = 0.346307, field 106 kept as the text `"0-"`, and numeric field
147 = 539, the trailing `!` having been stripped before splitting
(otherwise the last token would have been the non-numeric `"539!"`). -/
theorem c1_decode_sample :
    ((parseCedroMessage
        "T:WINJ25:102635:2:133290:21:0.346307:106:0-:147:539!").toOption.map
      (fun m => (m.ticker, getField m.fields (some 2), getField m.fields (some 21),
        getField m.fields (some 106), getField m.fields (some 147)))) =
      some ("WINJ25", some (.num (.fin 133290 0)), some (.num (.fin 346307 (-6))),
        some (.str "0-"), some (.num (.fin 539 0))) ∧
    JSNum.toRat (.fin 133290 0) = 133290 ∧
    JSNum.toRat (.fin 346307 (-6)) = 346307 / 1000000 ∧
    JSNum.toRat (.fin 539 0) = 539 := by
  refine ⟨by decide, by simp [JSNum.toRat], ?_, by simp [JSNum.toRat]⟩
  simp [JSNum.toRat]
  norm_num

/-- C6: an input that does not begin with the record marker `"T:"`
decodes, in both parser versions, to the degenerate message whose ticker
is the whole input verbatim and whose field map is empty. -/
theorem c6_non_marker_fallback (s : String) (h : jsStartsWith s "T:" = false) :
    parseCedroMessage s = .ok ⟨s, [], []⟩ ∧ parseCedroMessageRoot s = ⟨s, [], []⟩ := by
  refine ⟨?_, ?_⟩
  · unfold parseCedroMessage
    simp [h]
  · unfold parseCedroMessageRoot
    simp [h]

/-- Witness for C6 at the spec's example input. -/
theorem c6_non_marker_fallback_witness :
    parseCedroMessage "not a feed message" = .ok ⟨"not a feed message", [], []⟩ ∧
    parseCedroMessageRoot "not a feed message" = ⟨"not a feed message", [], []⟩ :=
  c6_non_marker_fallback "not a feed message" (by decide)

/-- C5 as stated is falsified by the decoder the live pipeline imports:
the input `"T:"` begins with the record marker but splits into fewer
than 3 parts, and decode throws `"Invalid message format"` instead of
returning a Message. -/
theorem c5_counterexample :
    parseCedroMessage "T:" = .error "Invalid message format" := rfl

/-- C5 (amended): decode throws exactly on inputs that begin with `"T:"`
yet split (after terminator stripping) into fewer than three parts, with
the fixed message `"Invalid message format"`; every other input decodes
to a Message.  Encoding never fails: for every Message, with any subset
of named fields present, the formatter produces a string opening with
the ticker line. -/
theorem c5_amended_totality :
    (∀ s : String, parseCedroMessage s = .error "Invalid message format" ↔
      (jsStartsWith s "T:" = true ∧
        (jsSplitColon (if jsEndsWithChar s '!' then jsDropLast s else s)).length < 3)) ∧
    (∀ s : String, (∃ m, parseCedroMessage s = .ok m) ∨
      parseCedroMessage s = .error "Invalid message format") ∧
    (∀ m : CedroMessage, jsStartsWith (formatCedroMessage m) "Ticker: " = true) := by
  refine ⟨?_, ?_, formatCedroMessage_startsWith⟩
  · intro s
    by_cases hs : jsStartsWith s "T:" = true
    · by_cases hlen : (jsSplitColon
          (if jsEndsWithChar s '!' then jsDropLast s else s)).length < 3
      · simp [parseLive_short s hs hlen, hs, hlen]
      · rw [parseLive_eq s hs hlen]
        simp [hlen]
    · rw [parseLive_nonT s hs]
      simp [hs]
  · intro s
    by_cases hs : jsStartsWith s "T:" = true
    · by_cases hlen : (jsSplitColon
          (if jsEndsWithChar s '!' then jsDropLast s else s)).length < 3
      · right
        exact parseLive_short s hs hlen
      · left
        exact ⟨_, parseLive_eq s hs hlen⟩
    · left
      exact ⟨_, parseLive_nonT s hs⟩

/-- Witness for C5 (amended) at concrete inputs. -/
theorem c5_amended_totality_witness :
    ((∃ m, parseCedroMessage "T:A:1:2:3" = .ok m) ∨
      parseCedroMessage "T:A:1:2:3" = .error "Invalid message format") ∧
    jsStartsWith (formatCedroMessage ⟨"A", [], []⟩) "Ticker: " = true :=
  ⟨c5_amended_totality.2.1 "T:A:1:2:3", c5_amended_totality.2.2 ⟨"A", [], []⟩⟩

/-- C4: in the decoded field map of a well-formed record, the value a
`(fieldID, value)` token pair leaves in the map (the pair being the last
one for its key) is `Number(token)` exactly when `Number(token)` is not
`NaN`, and the original text token otherwise. -/
theorem c4_numeric_coercion (msg : String) (h : jsStartsWith msg "T:" = true)
    (f v : String)
    (hlast : lastPairFor (completePairs (fieldPairs ((jsSplitColon msg).drop 3)))
        (jsParseInt f) = some (f, v)) :
    getField (parseCedroMessageRoot msg).fields (jsParseInt f) =
      some (if (jsNumber v).isNaN then .str v else .num (jsNumber v)) := by
  rw [parseRoot_fields_eq msg h, getField_applyPairs_nil, storedWrites,
    lastWrite_storedWrites, hlast]
  simp [coerceValue_eq_ite]

/-- Witness for C4: decimals with a leading sign are stored numerically,
the zero-padded token `"000000"` is stored as the number 0, and the
non-numeric token `"0-"` is kept as text. -/
theorem c4_numeric_coercion_witness :
    getField (parseCedroMessageRoot "T:X:1:2:000000:21:-1.5:106:0-").fields
        (jsParseInt "2") =
      some (if (jsNumber "000000").isNaN then .str "000000"
        else .num (jsNumber "000000")) ∧
    jsNumber "000000" = .fin 0 0 ∧ JSNum.toRat (.fin 0 0) = 0 ∧
    jsNumber "-1.5" = .fin (-15) (-1) ∧ JSNum.toRat (.fin (-15) (-1)) = -(3 / 2) ∧
    getField (parseCedroMessageRoot "T:X:1:2:000000:21:-1.5:106:0-").fields
        (jsParseInt "106") = some (.str "0-") := by
  refine ⟨c4_numeric_coercion _ (by decide) "2" "000000" (by decide),
    by decide, by simp [JSNum.toRat], by decide, ?_, by decide⟩
  simp [JSNum.toRat]
  norm_num

/-- C10 as stated is falsified by the live parser (the one the pipeline
imports): the truthy time token finally overwrites field 0 even when the
record also carried explicit pairs for field 0, and a later duplicate
pair with an empty value token is skipped rather than stored.  In
`"T:X:99:0:5:0:7"` the last field-0 pair carries 7 but the map holds the
text `"99"`; in `"T:X:88:2:5:2:"` the last field-2 pair carries `""`
(which coerces to 0) but the map holds 5. -/
theorem c10_counterexample :
    ((parseCedroMessage "T:X:99:0:5:0:7").toOption.map
        (fun m => getField m.fields (some 0))) = some (some (.str "99")) ∧
    JSValue.str "99" ≠ JSValue.num (.fin 7 0) ∧
    JSValue.num (.fin 7 0) = coerceValue "7" ∧
    ((parseCedroMessage "T:X:88:2:5:2:").toOption.map
        (fun m => getField m.fields (some 2))) = some (some (.num (.fin 5 0))) ∧
    JSValue.num (.fin 5 0) ≠ coerceValue "" := by
  refine ⟨by decide, by decide, by decide, by decide, by decide⟩

/-- C10 (amended): in the root parser a later duplicate pair always
overwrites an earlier one — the final value under any key is the last
stored write for that key — and the field map has unique keys.  In the
live parser the same holds with its two deviations carved out: the value
under any key other than field 0 is the last write among the pairs with
truthy tokens, and keys are likewise unique. -/
theorem c10_amended_last_write_wins (msg : String)
    (h : jsStartsWith msg "T:" = true) :
    (∀ k : JSKey,
      getField (parseCedroMessageRoot msg).fields k =
        lastWrite (storedWrites (fieldPairs ((jsSplitColon msg).drop 3))) k) ∧
    ((parseCedroMessageRoot msg).fields.map (fun p => p.1)).Nodup ∧
    (∀ m', parseCedroMessage msg = .ok m' →
      (∀ k : JSKey, k ≠ some 0 →
        getField m'.fields k =
          lastWrite (storedTruthyWrites (fieldPairs
            ((jsSplitColon (if jsEndsWithChar msg '!' then jsDropLast msg
              else msg)).drop 3))) k) ∧
      (m'.fields.map (fun p => p.1)).Nodup) := by
  refine ⟨?_, ?_, ?_⟩
  · intro k
    rw [parseRoot_fields_eq msg h, getField_applyPairs_nil]
  · rw [parseRoot_fields_eq msg h]
    exact nodup_keys_applyPairs _ _ (by simp)
  · intro m' hok
    by_cases hlen : (jsSplitColon
        (if jsEndsWithChar msg '!' then jsDropLast msg else msg)).length < 3
    · exfalso
      unfold parseCedroMessage at hok
      rw [if_neg (by simp [h])] at hok
      simp only [hlen, if_true] at hok
      exact Except.noConfusion hok
    · rw [parseLive_eq msg h hlen] at hok
      cases hok
      constructor
      · intro k hk
        by_cases ht : (jsSplitColon (if jsEndsWithChar msg '!' then jsDropLast msg
            else msg)).getD 2 "" ≠ ""
        · rw [if_pos ht, getField_setField,
            if_neg (fun he => hk he.symm), getField_applyPairs_nil]
        · rw [if_neg ht, getField_applyPairs_nil]
      · by_cases ht : (jsSplitColon (if jsEndsWithChar msg '!' then jsDropLast msg
            else msg)).getD 2 "" ≠ ""
        · rw [if_pos ht]
          exact nodup_keys_setField _ _ _ (nodup_keys_applyPairs _ _ (by simp))
        · rw [if_neg ht]
          exact nodup_keys_applyPairs _ _ (by simp)

/-- Witness for C10 (amended): duplicate field 2 resolves to the later
pair in both parsers. -/
theorem c10_amended_witness :
    getField (parseCedroMessageRoot "T:X:1:2:10:2:20").fields (some 2) =
      lastWrite (storedWrites (fieldPairs
        ((jsSplitColon "T:X:1:2:10:2:20").drop 3))) (some 2) ∧
    getField (parseCedroMessageRoot "T:X:1:2:10:2:20").fields (some 2) =
      some (.num (.fin 20 0)) :=
  ⟨(c10_amended_last_write_wins "T:X:1:2:10:2:20" (by decide)).1 (some 2),
    by decide⟩

/-- C2: what the writer actually does.  A successful write resets the
counter to 0 and the fiber keeps looping; the catch handler does select
the retry branch while the counter is within the budget of 3; but the
selected retry (or fatal) Effect is returned as the failure value of
`Effect.try`, so the very first failed write terminates the fiber — here
with two writable items still queued and never consumed — instead of
backing off and re-offering the message. -/
theorem c2_writer_first_failure_kills_fiber :
    (∀ n, writerBody n .ok = (0, none)) ∧
    (∀ n, n + 1 ≤ 3 → writerBody n .err = (n + 1, some .retryEffect)) ∧
    runWriterFiber 0 [.err, .ok, .ok] = (1, some .retryEffect, 1) := by
  refine ⟨fun n => rfl, fun n h => ?_, by decide⟩
  simp only [writerBody]
  rw [if_neg (by omega)]

/-- Witness for C2 at the first failure from a clean counter. -/
theorem c2_writer_first_failure_kills_fiber_witness :
    writerBody 5 .ok = (0, none) ∧
    (0 + 1 ≤ 3 ∧ writerBody 0 .err = (0 + 1, some .retryEffect)) :=
  ⟨c2_writer_first_failure_kills_fiber.1 5,
    by decide, c2_writer_first_failure_kills_fiber.2.1 0 (by decide)⟩

theorem tcpInv_symm (p q : TcpPhase) (s : ShutState) (h : tcpInv p q s) :
    tcpInv q p s := by
  unfold tcpInv at h ⊢
  by_cases hf : s.flag = true
  · rw [if_pos hf] at h ⊢
    omega
  · rw [if_neg hf] at h ⊢
    exact ⟨h.1, h.2.2, h.2.1⟩

theorem tcpStep_inv (p q : TcpPhase) (s : ShutState) (h : tcpInv p q s) :
    tcpInv (tcpStep p s).1 q (tcpStep p s).2 := by
  obtain ⟨flag, td⟩ := s
  cases p <;> cases q <;> cases flag <;>
    simp_all [tcpInv, tcpStep, tcpPending]

theorem runSched_tcpInv (sched : List Bool) (p q : TcpPhase) (s : ShutState)
    (h : tcpInv p q s) :
    tcpInv (runSched tcpStep sched (p, q) s).1.1
      (runSched tcpStep sched (p, q) s).1.2
      (runSched tcpStep sched (p, q) s).2 := by
  induction sched generalizing p q s with
  | nil => exact h
  | cons b r ih =>
    cases b with
    | true => exact ih _ _ _ (tcpStep_inv p q s h)
    | false =>
      exact ih _ _ _ (tcpInv_symm _ _ _ (tcpStep_inv q p s (tcpInv_symm p q s h)))

theorem stepN3_tcp_phase (p : TcpPhase) (s : ShutState) :
    (stepN tcpStep 3 p s).1 = .done := by
  obtain ⟨flag, td⟩ := s
  cases p <;> cases flag <;> simp [stepN, tcpStep]

theorem stepN3_tcp_inv (p q : TcpPhase) (s : ShutState) (h : tcpInv p q s) :
    tcpInv (stepN tcpStep 3 p s).1 q (stepN tcpStep 3 p s).2 :=
  tcpStep_inv _ q _ (tcpStep_inv _ q _ (tcpStep_inv p q s h))

/-- Any complete two-task tcp run out of an invariant state performs
exactly one teardown in total. -/
theorem tcp_flush_teardowns (p1 p2 : TcpPhase) (s : ShutState)
    (h : tcpInv p1 p2 s) :
    (stepN tcpStep 3 p2 (stepN tcpStep 3 p1 s).2).2.teardowns = 1 := by
  have h2 := stepN3_tcp_inv p1 p2 s h
  have h3 := tcpInv_symm _ _ _ h2
  have h4 := stepN3_tcp_inv p2 (stepN tcpStep 3 p1 s).1
    (stepN tcpStep 3 p1 s).2 h3
  rw [stepN3_tcp_phase p1 s, stepN3_tcp_phase p2 (stepN tcpStep 3 p1 s).2] at h4
  unfold tcpInv at h4
  by_cases hf : (stepN tcpStep 3 p2 (stepN tcpStep 3 p1 s).2).2.flag = true
  · rw [if_pos hf] at h4
    simpa [tcpPending] using h4
  · rw [if_neg hf] at h4
    exact absurd h4.2.1 (by decide)

/-- C3 fails on the Fan-out Broadcaster: with the atomic guard commented
out, the schedule in which both concurrent `close` calls read the flag
before either teardown begins runs the teardown twice, not once. -/
theorem c3_counterexample :
    (runTwoShutdowns wsStep .start [true, false]).teardowns = 2 ∧
    (runTwoShutdowns wsStep .start [true, false]).teardowns ≠ 1 := by
  refine ⟨by decide, by decide⟩

/-- C3 (amended): the Connection's `performShutdown` performs its
teardown exactly once under EVERY interleaving of two concurrent
invocations (the decision is the single atomic `getAndSet`); the
Broadcaster's `close` is idempotent only sequentially — a second
invocation after the first completed does nothing. -/
theorem c3_amended_shutdown_once (sched : List Bool) :
    (runTwoShutdowns tcpStep .start sched).teardowns = 1 ∧
    (runTwoShutdowns wsStep .start []).teardowns = 1 := by
  refine ⟨?_, by decide⟩
  have h0 : tcpInv .start .start ⟨false, 0⟩ := by
    simp [tcpInv]
  have h1 := runSched_tcpInv sched .start .start ⟨false, 0⟩ h0
  exact tcp_flush_teardowns _ _ _ h1

/-- Witness for C3 (amended) at a concrete interleaving. -/
theorem c3_amended_shutdown_once_witness :
    (runTwoShutdowns tcpStep .start [true, false]).teardowns = 1 ∧
    (runTwoShutdowns wsStep .start []).teardowns = 1 :=
  c3_amended_shutdown_once [true, false]

/-! ### Rate-stream lemmas -/

theorem lastN_push (N : ℕ) (hN : 1 ≤ N) (prev : List ℚ) (x : ℚ) :
    (if N < (lastN N prev ++ [x]).length then (lastN N prev ++ [x]).tail
      else lastN N prev ++ [x]) = lastN N (prev ++ [x]) := by
  unfold lastN
  by_cases hp : prev.length < N
  · have h1 : prev.length - N = 0 := by omega
    have h2 : prev.length + 1 - N = 0 := by omega
    rw [h1, List.drop_zero, if_neg (by simp; omega)]
    simp [List.length_append, h2]
  · push_neg at hp
    have hlen : (prev.drop (prev.length - N)).length = N := by
      simp [List.length_drop]
      omega
    rw [if_pos (by simp [hlen])]
    have hne : (prev.drop (prev.length - N)).isEmpty = false := by
      cases hd : prev.drop (prev.length - N) with
      | nil => rw [hd] at hlen; simp at hlen; omega
      | cons a t => simp [List.isEmpty]
    rw [List.tail_append, hne, if_neg (by simp), List.tail_drop]
    have h3 : (prev ++ [x]).length - N = (prev.length - N) + 1 := by
      simp [List.length_append]
      omega
    rw [h3, List.drop_append_of_le_length (by omega)]

theorem length_rateStreamAux (N : ℕ) (wt : ℚ) (rs : List ℚ)
    (ws : List WindowAgg) :
    (rateStreamAux N wt rs ws).length = ws.length := by
  induction ws generalizing rs with
  | nil => rfl
  | cons w ws' ih => simp [rateStreamAux, ih]

theorem rateStep_fst (N : ℕ) (wt : ℚ) (rates : List ℚ) (w : WindowAgg) :
    (rateStep N wt rates w).1 =
      if N < (rates ++ [(w.count : ℚ) / wt]).length then
        (rates ++ [(w.count : ℚ) / wt]).tail
      else rates ++ [(w.count : ℚ) / wt] := rfl

theorem rateStreamAux_spec (N : ℕ) (hN : 1 ≤ N) (wt : ℚ) :
    ∀ (ws : List WindowAgg) (prev : List ℚ) (i : ℕ), i < ws.length →
      (rateStreamAux N wt (lastN N prev) ws).getD i ⟨0, 0, 0, 0⟩ =
        ⟨(ws.getD i ⟨0, 0⟩).count, (ws.getD i ⟨0, 0⟩).totalMillis,
          ((ws.getD i ⟨0, 0⟩).count : ℚ) / wt,
          mean (lastN N (prev ++ windowRates wt (ws.take (i + 1))))⟩ := by
  intro ws
  induction ws with
  | nil =>
    intro prev i hi
    simp at hi
  | cons w ws' ih =>
    intro prev i hi
    have hpush := lastN_push N hN prev ((w.count : ℚ) / wt)
    cases i with
    | zero =>
      simp only [rateStreamAux, List.getD_cons_zero]
      have hsnd : (rateStep N wt (lastN N prev) w).2 =
          ⟨w.count, w.totalMillis, (w.count : ℚ) / wt,
            mean (lastN N (prev ++ [(w.count : ℚ) / wt]))⟩ := by
        simp only [rateStep]
        rw [hpush]
        rfl
      rw [hsnd]
      simp [windowRates, List.take]
    | succ j =>
      simp only [rateStreamAux, List.getD_cons_succ]
      rw [rateStep_fst, hpush]
      rw [ih (prev ++ [(w.count : ℚ) / wt]) j (by simpa using hi)]
      simp [windowRates, List.take, List.append_assoc]

theorem rateStream_spec (N : ℕ) (hN : 1 ≤ N) (wt : ℚ) (ws : List WindowAgg)
    (i : ℕ) (hi : i < ws.length) :
    (rateStream N wt ws).getD i ⟨0, 0, 0, 0⟩ =
      ⟨(ws.getD i ⟨0, 0⟩).count, (ws.getD i ⟨0, 0⟩).totalMillis,
        ((ws.getD i ⟨0, 0⟩).count : ℚ) / wt,
        mean (lastN N (windowRates wt (ws.take (i + 1))))⟩ := by
  have h := rateStreamAux_spec N hN wt ws [] i hi
  simpa [rateStream, lastN] using h

theorem getD_map_lt {α β : Type} (f : α → β) (l : List α) (i : ℕ)
    (h : i < l.length) (d : β) (d' : α) :
    (l.map f).getD i d = f (l.getD i d') := by
  induction l generalizing i with
  | nil => simp at h
  | cons a t ih =>
    cases i with
    | zero => simp
    | succ j => simpa using ih j (by simpa using h)

/-- C7: every record emitted by the rate stream carries its window's
rate `count / windowTime`, and its moving average is the arithmetic mean
of the most recent at-most-N window rates (the oldest evicted once more
than N are retained); one record is emitted per window. -/
theorem c7_rate_and_moving_average (N : ℕ) (hN : 1 ≤ N) (wt : ℚ)
    (ws : List WindowAgg) :
    (rateStream N wt ws).length = ws.length ∧
    ∀ i, i < ws.length →
      (rateStream N wt ws).getD i ⟨0, 0, 0, 0⟩ =
        ⟨(ws.getD i ⟨0, 0⟩).count, (ws.getD i ⟨0, 0⟩).totalMillis,
          ((ws.getD i ⟨0, 0⟩).count : ℚ) / wt,
          mean (lastN N (windowRates wt (ws.take (i + 1))))⟩ :=
  ⟨length_rateStreamAux N wt [] ws, fun i hi => rateStream_spec N hN wt ws i hi⟩

/-- Witness for C7 with the default N = 10: two windows of 2 and 4
messages over 1-second windows give a second record with rate 4 and
moving average (2 + 4) / 2 = 3. -/
theorem c7_rate_and_moving_average_witness :
    (rateStream 10 1 [⟨2, 0⟩, ⟨4, 0⟩]).getD 1 ⟨0, 0, 0, 0⟩ =
      ⟨(([⟨2, 0⟩, ⟨4, 0⟩] : List WindowAgg).getD 1 ⟨0, 0⟩).count,
        (([⟨2, 0⟩, ⟨4, 0⟩] : List WindowAgg).getD 1 ⟨0, 0⟩).totalMillis,
        ((([⟨2, 0⟩, ⟨4, 0⟩] : List WindowAgg).getD 1 ⟨0, 0⟩).count : ℚ) / 1,
        mean (lastN 10 (windowRates 1 (([⟨2, 0⟩, ⟨4, 0⟩] : List WindowAgg).take 2)))⟩ ∧
    mean (lastN 10 (windowRates 1 (([⟨2, 0⟩, ⟨4, 0⟩] : List WindowAgg).take 2))) = 3 := by
  refine ⟨(c7_rate_and_moving_average 10 (by norm_num) 1 _).2 1 (by norm_num), ?_⟩
  simp [mean, lastN, windowRates]
  norm_num

/-- C8 as stated is false on both cited code paths.  In metrics.ts the
measured-time reduce is commented out: with the default 500 ms window, a
window holding one message measured at 7 ms emits average latency 500
(the window duration divided by the count), not 7.  And even in
part_004, which does sum the measured times, the quotient is rounded by
`toFixed(2)`: three messages totalling 1 ms emit 0.33, not 1/3. -/
theorem c8_counterexample :
    JSNum.toRat (((metricsPipeline 10 (1 / 2) 0 0 (windowedStreamFixed (1 / 2))
        [[7]]).getD 0 ⟨0, 0, 0, 0, 0, .fin 0 0⟩).avgProcessingTime) = 500 ∧
    listSum [7] / (([7] : List ℚ).length : ℚ) = 7 ∧
    (500 : ℚ) ≠ 7 ∧
    JSNum.toRat (((metricsPipeline 10 1 0 0 windowedStreamMeasured
        [[1, 0, 0]]).getD 0 ⟨0, 0, 0, 0, 0, .fin 0 0⟩).avgProcessingTime) = 33 / 100 ∧
    listSum [1, 0, 0] / (([1, 0, 0] : List ℚ).length : ℚ) = 1 / 3 ∧
    (33 / 100 : ℚ) ≠ 1 / 3 := by
  have hr2 : round ((100 : ℚ) / 3) = 33 := by
    rw [round_eq, show ((100 : ℚ) / 3 + 1 / 2) = 203 / 6 by norm_num]
    have h6 : ⌊(203 : ℚ) / 6⌋ = 33 := by
      rw [Int.floor_eq_iff]
      constructor <;> norm_num
    rw [h6]
  refine ⟨?_, by simp [listSum], by norm_num, ?_, by simp [listSum], by norm_num⟩
  · simp [metricsPipeline, rateStream, rateStreamAux, rateStep, metricsRecord,
      windowedStreamFixed, listSum, toFixed2, JSNum.toRat]
    rw [show ((2⁻¹ : ℚ) * 1000 * 100) = ((50000 : ℤ) : ℚ) by norm_num, round_intCast]
    norm_num
  · simp [metricsPipeline, rateStream, rateStreamAux, rateStep, metricsRecord,
      windowedStreamMeasured, listSum, toFixed2, JSNum.toRat]
    norm_num [hr2]

/-- C8 (amended): in the part_004 pipeline the emitted average
processing latency is the total measured per-message time of the window
divided by its count and then rounded to two decimal places by
`toFixed(2)`, and 0 when the count is 0 (the division is guarded by the
count check); in the metrics.ts pipeline the numerator is instead the
window duration in milliseconds. -/
theorem c8_amended_avg_latency (N : ℕ) (hN : 1 ≤ N) (wt now total : ℚ)
    (chunks : List (List ℚ)) (i : ℕ) (hi : i < chunks.length) :
    ((metricsPipeline N wt now total windowedStreamMeasured chunks).getD i
        ⟨0, 0, 0, 0, 0, .fin 0 0⟩).avgProcessingTime =
      (if 0 < (chunks.getD i []).length then
        toFixed2 (listSum (chunks.getD i []) / ((chunks.getD i []).length : ℚ))
      else .fin 0 0) ∧
    ((metricsPipeline N wt now total (windowedStreamFixed wt) chunks).getD i
        ⟨0, 0, 0, 0, 0, .fin 0 0⟩).avgProcessingTime =
      (if 0 < (chunks.getD i []).length then
        toFixed2 ((wt * 1000) / ((chunks.getD i []).length : ℚ))
      else .fin 0 0) := by
  constructor
  · have hlen : i < (chunks.map windowedStreamMeasured).length := by simpa using hi
    have hrl : i < (rateStream N wt (chunks.map windowedStreamMeasured)).length := by
      rw [rateStream, length_rateStreamAux]
      exact hlen
    unfold metricsPipeline
    rw [getD_map_lt (metricsRecord now total wt) _ i hrl _ ⟨0, 0, 0, 0⟩,
      rateStream_spec N hN wt _ i hlen,
      getD_map_lt windowedStreamMeasured chunks i hi _ []]
    simp [metricsRecord, windowedStreamMeasured]
  · have hlen : i < (chunks.map (windowedStreamFixed wt)).length := by simpa using hi
    have hrl : i < (rateStream N wt (chunks.map (windowedStreamFixed wt))).length := by
      rw [rateStream, length_rateStreamAux]
      exact hlen
    unfold metricsPipeline
    rw [getD_map_lt (metricsRecord now total wt) _ i hrl _ ⟨0, 0, 0, 0⟩,
      rateStream_spec N hN wt _ i hlen,
      getD_map_lt (windowedStreamFixed wt) chunks i hi _ []]
    simp [metricsRecord, windowedStreamFixed]

/-- Witness for C8 (amended): a window of two messages measured 4 ms and
2 ms emits average latency 3. -/
theorem c8_amended_avg_latency_witness :
    ((metricsPipeline 10 1 0 0 windowedStreamMeasured [[4, 2]]).getD 0
        ⟨0, 0, 0, 0, 0, .fin 0 0⟩).avgProcessingTime =
      (if 0 < (([[4, 2]] : List (List ℚ)).getD 0 []).length then
        toFixed2 (listSum (([[4, 2]] : List (List ℚ)).getD 0 []) /
          ((([[4, 2]] : List (List ℚ)).getD 0 []).length : ℚ))
      else .fin 0 0) ∧
    JSNum.toRat (toFixed2 (listSum (([[4, 2]] : List (List ℚ)).getD 0 []) /
      ((([[4, 2]] : List (List ℚ)).getD 0 []).length : ℚ))) = 3 := by
  refine ⟨(c8_amended_avg_latency 10 (by norm_num) 1 0 0 [[4, 2]] 0 (by norm_num)).1, ?_⟩
  have hr : round ((6 : ℚ) / 2 * 100) = 300 := by
    rw [show ((6 : ℚ) / 2 * 100) = ((300 : ℤ) : ℚ) by norm_num, round_intCast]
  simp [listSum, toFixed2, JSNum.toRat]
  norm_num [hr]

/-- C9: a record passes `validateMetrics` exactly when its window count
and message rate are non-negative, its average processing latency is
finite, and its timestamp is at most one second in the future; the
publish stage keeps exactly the passing records (a sublist — dropped
records are gone, nothing is retried or duplicated). -/
theorem c9_only_validated_published (now : ℚ) (records : List Metrics) :
    (∀ m, m ∈ publishMetrics now records →
      0 ≤ m.windowCount ∧ 0 ≤ m.messageRate ∧
        m.avgProcessingTime.isFinite = true ∧ m.timestamp ≤ now + 1000) ∧
    (∀ m, m ∈ records →
      ¬(0 ≤ m.windowCount ∧ 0 ≤ m.messageRate ∧
        m.avgProcessingTime.isFinite = true ∧ m.timestamp ≤ now + 1000) →
      m ∉ publishMetrics now records) ∧
    List.Sublist (publishMetrics now records) records := by
  have hiff : ∀ m : Metrics, validateMetrics now m = true ↔
      (0 ≤ m.windowCount ∧ 0 ≤ m.messageRate ∧
        m.avgProcessingTime.isFinite = true ∧ m.timestamp ≤ now + 1000) := by
    intro m
    unfold validateMetrics
    by_cases h1 : m.windowCount < 0 <;> by_cases h2 : m.messageRate < 0 <;>
      by_cases h3 : m.avgProcessingTime.isFinite = true <;>
      by_cases h4 : m.timestamp > now + 1000 <;>
      simp [h1, h2, h3, h4, not_lt, le_of_not_lt]
  refine ⟨?_, ?_, List.filter_sublist _⟩
  · intro m hm
    unfold publishMetrics at hm
    exact (hiff m).1 (List.mem_filter.1 hm).2
  · intro m _ hbad hmem
    unfold publishMetrics at hmem
    exact hbad ((hiff m).1 (List.mem_filter.1 hmem).2)

/-- Witness for C9: a valid record is published, and the theorem yields
its validated bounds. -/
theorem c9_only_validated_published_witness :
    (⟨0, 1, 1, 5, 2, .fin 1 0⟩ : Metrics) ∈
      publishMetrics 0 [⟨0, 1, 1, 5, 2, .fin 1 0⟩, ⟨0, -1, 1, 5, 2, .fin 1 0⟩] ∧
    (0 ≤ (⟨0, 1, 1, 5, 2, .fin 1 0⟩ : Metrics).windowCount ∧
      0 ≤ (⟨0, 1, 1, 5, 2, .fin 1 0⟩ : Metrics).messageRate ∧
      (⟨0, 1, 1, 5, 2, .fin 1 0⟩ : Metrics).avgProcessingTime.isFinite = true ∧
      (⟨0, 1, 1, 5, 2, .fin 1 0⟩ : Metrics).timestamp ≤ 0 + 1000) := by
  have hm : (⟨0, 1, 1, 5, 2, .fin 1 0⟩ : Metrics) ∈
      publishMetrics 0 [⟨0, 1, 1, 5, 2, .fin 1 0⟩, ⟨0, -1, 1, 5, 2, .fin 1 0⟩] := by
    simp [publishMetrics, validateMetrics, JSNum.isFinite]
  exact ⟨hm, (c9_only_validated_published 0 _).1 _ hm⟩

end MCedro
